import Mathlib

/-!
Verification of the INSIGHTs PROaCTIVE analytics core.

This file gives a shallow embedding of the algorithmic core of the
repository: the synthetic score generator and auxiliary metric generator
(`simu_prototype.py`), the keyed seed derivation
(`generate_ai_feedback_context`), the miss-graph builder, the adaptive
edge threshold, and the correlation analyzer with Fisher confidence
intervals (`streamlit_app.py`), together with theorems about them.

Real numbers replace Python floats (exact-arithmetic idealization) and
rationals are used wherever the pipeline is otherwise discrete.  The
Python `random` module stream is modelled by an explicit deterministic
generator: a state counter together with a concrete low-discrepancy value
function.  The claims verified here depend only on the stream being a
deterministic function of the seed and on each call consuming one unit of
state, never on the distribution of the draws, so the particular value
function is immaterial; the source pins the stream by calling
`random.seed(seed)` at the top of each generator.
-/

namespace Insights

/-- Value mixing function of the modelled pseudo-random stream
(a small linear congruential step). -/
def lcg (n : ℕ) : ℕ := (137 * n + 71) % 1000

/-- A draw in `[0, 1)` from stream state `s`. -/
def rand01 (s : ℕ) : ℚ := (lcg s : ℚ) / 1000

/-- Models `random.uniform(a, b)`: value in `[a, b]`, consumes one state unit. -/
def randUniform (a b : ℚ) (s : ℕ) : ℚ × ℕ := (a + (b - a) * rand01 s, s + 1)

/-- Models `random.gauss(mu, sigma)`: an unbounded-in-principle draw, here a
value in `[mu - sigma, mu + sigma]`; the claims never use tail behaviour. -/
def randGauss (mu sigma : ℚ) (s : ℕ) : ℚ × ℕ := (mu + sigma * (2 * rand01 s - 1), s + 1)

/-- Models `random.random()`. -/
def randFloat (s : ℕ) : ℚ × ℕ := (rand01 s, s + 1)

/-- Models `random.seed(seed)`: the stream state is a function of the seed alone. -/
def seedInit (seed : ℕ) : ℕ := 1009 * seed

/-- Sequential state-threaded map: runs the drawing function `f` on each
element of the list in order, threading the stream state left to right.
This is the shape of every `for`-loop over seeded draws in the source. -/
def mapDraw (f : α → ℕ → β × ℕ) : List α → ℕ → List β × ℕ
  | [], s => ([], s)
  | x :: xs, s =>
    match f x s with
    | (y, s1) =>
      match mapDraw f xs s1 with
      | (ys, s2) => (y :: ys, s2)

theorem headD_mem {l : List α} (d : α) (h : l ≠ []) : l.headD d ∈ l := by
  cases l with
  | nil => exact absurd rfl h
  | cons x xs => exact List.mem_cons_self x xs

theorem mapDraw_nil (f : α → ℕ → β × ℕ) (s : ℕ) : mapDraw f [] s = ([], s) := rfl

theorem mapDraw_cons (f : α → ℕ → β × ℕ) (x : α) (xs : List α) (s : ℕ) :
    mapDraw f (x :: xs) s =
      ((f x s).1 :: (mapDraw f xs (f x s).2).1, (mapDraw f xs (f x s).2).2) := rfl

theorem mem_mapDraw {f : α → ℕ → β × ℕ} {xs : List α} {s : ℕ} {y : β}
    (h : y ∈ (mapDraw f xs s).1) : ∃ x ∈ xs, ∃ s1, y = (f x s1).1 := by
  induction xs generalizing s with
  | nil => simp [mapDraw_nil] at h
  | cons x xs ih =>
    rw [mapDraw_cons] at h
    rcases List.mem_cons.mp h with h | h
    · exact ⟨x, List.mem_cons_self x xs, s, h⟩
    · obtain ⟨x1, hx1, s1, hy⟩ := ih h
      exact ⟨x1, List.mem_cons_of_mem x hx1, s1, hy⟩

theorem mapDraw_state_const {f : α → ℕ → β × ℕ} {k : ℕ}
    (h : ∀ x s, (f x s).2 = s + k) (xs : List α) (s : ℕ) :
    (mapDraw f xs s).2 = s + k * xs.length := by
  induction xs generalizing s with
  | nil => simp [mapDraw_nil]
  | cons x xs ih =>
    rw [mapDraw_cons, ih, h, List.length_cons]
    ring

theorem mapDraw_state_sum {f : α → ℕ → β × ℕ} {c : α → ℕ}
    (h : ∀ x s, (f x s).2 = s + c x) (xs : List α) (s : ℕ) :
    (mapDraw f xs s).2 = s + (xs.map c).sum := by
  induction xs generalizing s with
  | nil => simp [mapDraw_nil]
  | cons x xs ih =>
    rw [mapDraw_cons, ih, h, List.map_cons, List.sum_cons]
    ring

/-- Python clamp idiom `max(lo, min(hi, x))`. -/
def pyClamp (lo hi x : ℚ) : ℚ := max lo (min hi x)

theorem pyClamp_bounds {lo hi : ℚ} (h : lo ≤ hi) (x : ℚ) :
    lo ≤ pyClamp lo hi x ∧ pyClamp lo hi x ≤ hi := by
  unfold pyClamp
  constructor
  · exact le_max_left lo _
  · exact max_le h (min_le_left hi x)

/-- Python `round(x, 1)` (the round-half-even tie rule differs from `round`
only on exact ties, which no claim depends on). -/
def round1 (x : ℚ) : ℚ := ((round (10 * x) : ℤ) : ℚ) / 10

/-- The domain → elements configuration `GROUPS` of `simu_prototype.py`:
5 domains with 4 elements each. -/
def GROUPS : List (String × List String) :=
  [("PRO_01_Question_Formulation",
      ["question_depth", "question_types", "question_timing", "question_clarity"]),
   ("PRO_02_Response_Quality",
      ["reflective_pausing", "response_completeness", "understanding_verification",
       "empathic_acknowledgment"]),
   ("PRO_03_Critical_Thinking",
      ["assumption_recognition", "reasoning_transparency", "differential_thinking",
       "complexity_navigation"]),
   ("PRO_04_Humility_Partnership",
      ["plan_flexibility", "expertise_acknowledgment", "uncertainty_communication",
       "partnership_language"]),
   ("PRO_05_Reflective_Practice",
      ["in_encounter_adjustment", "bias_recognition", "style_awareness",
       "post_encounter_reflection"])]

/-- Flattened element column list. -/
def ELEMENTS : List String := GROUPS.flatMap Prod.snd

/-- The three fixed scenario labels. -/
def scenarioLabels : List String :=
  ["PROaCTIVE : Cardio A", "PROaCTIVE : Cardio B", "PROaCTIVE : Respiratory"]

/-- The three fixed mode labels. -/
def modeLabels : List String := ["Socratic", "Verbal", "Mixed"]

/-- One generated row.  The fields `smod` and `mmod` record the values of the
local variables `scenario_modifier` and `mode_modifier` of the iteration that
built the row (every one of the row's element scores is computed from them);
the CSV columns are the remaining fields plus `scores`. -/
structure ScoreRow where
  student_id : String
  attempt : ℕ
  scenarioLabel : String
  modeLabel : String
  smod : ℚ
  mmod : ℚ
  scores : List (String × ℚ)
deriving DecidableEq

/-- A default row (used only to select concrete rows in witnesses). -/
def defaultRow : ScoreRow := ⟨"", 0, "", "", 0, 0, []⟩

/-- The element score expression of `generate_mock_data`:
`max(0.0, min(4.0, round(base + improvement*g_sens + g_bias +
scenario_modifier + mode_modifier + gauss, 1)))`. -/
def elementScore (base improvement gSens gBias smod mmod noise : ℚ) : ℚ :=
  pyClamp 0 4 (round1 (base + improvement * gSens + gBias + smod + mmod + noise))

/-- Per-element draw of the inner loop of `generate_mock_data`: one noise
term `random.gauss(0, 0.5)` and the clamped, rounded score. -/
def elementDraw (base improvement gSens gBias smod mmod : ℚ) (el : String) (s : ℕ) :
    (String × ℚ) × ℕ :=
  match randGauss 0 (1/2) s with
  | (nz, s1) => ((el, elementScore base improvement gSens gBias smod mmod nz), s1)

theorem elementDraw_fst (base improvement gSens gBias smod mmod : ℚ) (el : String) (s : ℕ) :
    (elementDraw base improvement gSens gBias smod mmod el s).1 =
      (el, elementScore base improvement gSens gBias smod mmod
        (randGauss 0 (1/2) s).1) := rfl

/-- The per-group inner loop: looks up the group sensitivity and bias, then
draws each element of the group. -/
def groupDraw (base improvement : ℚ) (sens bias : List (String × ℚ)) (smod mmod : ℚ)
    (g : String × List String) (s : ℕ) : List (String × ℚ) × ℕ :=
  mapDraw (elementDraw base improvement ((sens.lookup g.1).getD 0)
    ((bias.lookup g.1).getD 0) smod mmod) g.2 s

/-- The body of the innermost attempt loop of `generate_mock_data`: draws the
improvement factor, the scenario and mode modifiers, then one noise term per
element; assembles one row. -/
def genAttemptRow (st : String) (base : ℚ) (sens bias : List (String × ℚ))
    (groups : List (String × List String)) (scen mo : String) (a : ℕ) (s : ℕ) :
    ScoreRow × ℕ :=
  match randUniform (1/10) (3/10) s with
  | (imp, s1) =>
    match randGauss 0 (1/10) s1 with
    | (smod, s2) =>
      match randGauss 0 (1/10) s2 with
      | (mmod, s3) =>
        match mapDraw (groupDraw base (((a : ℚ) - 1) * imp) sens bias smod mmod)
            groups s3 with
        | (ess, s4) => (⟨st, a, scen, mo, smod, mmod, ess.flatten⟩, s4)

/-- The `for a in attempts` loop for one (student, scenario, mode). -/
def modeBlock (st : String) (base : ℚ) (sens bias : List (String × ℚ))
    (groups : List (String × List String)) (attempts : List ℕ) (scen : String)
    (mo : String) (s : ℕ) : List ScoreRow × ℕ :=
  mapDraw (genAttemptRow st base sens bias groups scen mo) attempts s

/-- The `for mode in modes` loop for one (student, scenario). -/
def scenBlock (st : String) (base : ℚ) (sens bias : List (String × ℚ))
    (groups : List (String × List String)) (attempts : List ℕ) (scen : String)
    (s : ℕ) : List ScoreRow × ℕ :=
  match mapDraw (modeBlock st base sens bias groups attempts scen) modeLabels s with
  | (rws, s1) => (rws.flatten, s1)

theorem scenBlock_fst (st : String) (base : ℚ) (sens bias : List (String × ℚ))
    (groups : List (String × List String)) (attempts : List ℕ) (scen : String)
    (s : ℕ) :
    (scenBlock st base sens bias groups attempts scen s).1 =
      (mapDraw (modeBlock st base sens bias groups attempts scen) modeLabels s).1.flatten :=
  rfl

/-- Models `random.uniform(-0.3, 0.3)` for the per-student per-group bias. -/
def drawBias (g : String × List String) (s : ℕ) : (String × ℚ) × ℕ :=
  match randUniform (-(3/10)) (3/10) s with
  | (u, s1) => ((g.1, u), s1)

/-- The per-student body: draws the group biases, then iterates scenarios. -/
def studentBlock (baselines sens : List (String × ℚ))
    (groups : List (String × List String)) (attempts : List ℕ) (st : String)
    (s : ℕ) : List ScoreRow × ℕ :=
  match mapDraw drawBias groups s with
  | (bias, s1) =>
    match mapDraw
        (scenBlock st ((baselines.lookup st).getD 0) sens bias groups attempts)
        scenarioLabels s1 with
    | (rws, s2) => (rws.flatten, s2)

theorem studentBlock_fst (baselines sens : List (String × ℚ))
    (groups : List (String × List String)) (attempts : List ℕ) (st : String)
    (s : ℕ) :
    (studentBlock baselines sens groups attempts st s).1 =
      (mapDraw
        (scenBlock st ((baselines.lookup st).getD 0) sens
          (mapDraw drawBias groups s).1 groups attempts)
        scenarioLabels (mapDraw drawBias groups s).2).1.flatten := rfl

/-- Models `random.uniform(1.2, 2.8)` for the per-student baseline. -/
def drawBaseline (st : String) (s : ℕ) : (String × ℚ) × ℕ :=
  match randUniform (12/10) (28/10) s with
  | (u, s1) => ((st, u), s1)

/-- Models `random.uniform(0.8, 1.2)` for the shared group sensitivity. -/
def drawSensitivity (g : String × List String) (s : ℕ) : (String × ℚ) × ℕ :=
  match randUniform (8/10) (12/10) s with
  | (u, s1) => ((g.1, u), s1)

/-- `generate_mock_data` before the final shuffle, together with the final
stream state: draws baselines per student, sensitivities per group, then per
student the group biases and the scenario × mode × attempt rows. -/
def generate_rows (students : List String) (attempts : List ℕ) (seed : ℕ)
    (groups : List (String × List String)) : List ScoreRow × ℕ :=
  match mapDraw drawBaseline students (seedInit seed) with
  | (baselines, sA) =>
    match mapDraw drawSensitivity groups sA with
    | (sens, sB) =>
      match mapDraw (studentBlock baselines sens groups attempts) students sB with
      | (nested, sC) => (nested.flatten, sC)

theorem generate_rows_fst (students : List String) (attempts : List ℕ) (seed : ℕ)
    (groups : List (String × List String)) :
    (generate_rows students attempts seed groups).1 =
      (mapDraw
        (studentBlock (mapDraw drawBaseline students (seedInit seed)).1
          (mapDraw drawSensitivity groups
            (mapDraw drawBaseline students (seedInit seed)).2).1
          groups attempts)
        students
        (mapDraw drawSensitivity groups
          (mapDraw drawBaseline students (seedInit seed)).2).2).1.flatten := rfl

/-- Models `df.sample(frac=1.0, random_state=seed)`: one deterministic
full-sequence permutation selected by the seed alone. -/
def pandasShuffle (seed : ℕ) (rows : List ScoreRow) : List ScoreRow :=
  rows.rotate (lcg seed % (rows.length + 1))

/-- `generate_mock_data(students, attempts, seed, groups)`.  The parameter
`amb` is the ambient state of the `random` module stream at call time; the
first statement of the source, `random.seed(seed)`, replaces that state, so
the body never reads `amb`. -/
def generate_mock_data (amb : ℕ) (students : List String) (attempts : List ℕ)
    (seed : ℕ) (groups : List (String × List String) := GROUPS) : List ScoreRow :=
  pandasShuffle seed (generate_rows students attempts seed groups).1

/-- C1: for every list of students, list of attempts and seed, the score
generator called twice with identical arguments yields identical output,
including identical row order: its result does not depend on the ambient
random-stream state (`random.seed(seed)` replaces it), and the final shuffle
is keyed by the same seed, so the row list is a function of the arguments
alone. -/
theorem c1_generate_mock_data_deterministic (amb1 amb2 : ℕ) (students : List String)
    (attempts : List ℕ) (seed : ℕ) (groups : List (String × List String)) :
    generate_mock_data amb1 students attempts seed groups =
      generate_mock_data amb2 students attempts seed groups := rfl

/-! ### Auxiliary metric generator (`generate_socratic_metrics`) -/

/-- The 8 binary encounter checklist items. -/
def ENCOUNTER_ELEMENTS : List String :=
  ["chief_complaint", "hpi", "pmh", "social_history", "ros", "family_history",
   "surgical_history", "allergies"]

/-- The 4 speech quality metrics. -/
def SPEECH_METRICS : List String := ["volume", "pace", "pitch", "pauses"]

/-- `socratic_specs`: (competency area, metric, measurement). -/
def socratic_specs : List (String × String × String) :=
  [("Question Formulation", "Question Depth", "levels"),
   ("Response Quality", "Response Completeness", "percent"),
   ("Critical Thinking", "Assumption Recognition", "rating"),
   ("Humility Partnership", "Plan Flexibility", "percent"),
   ("Reflective Practice", "In-Encounter Adjustment", "rating")]

/-- One wide row of the socratic metrics table: the binary encounter
checklist, the speech scores and the socratic component scores for one
(student, attempt).  The long table of the source carries exactly the same
socratic score values in key-value form. -/
structure SocRow where
  student_id : String
  attempt : ℕ
  encounter : List (String × ℕ)
  speech : List (String × ℚ)
  socratic : List (String × ℚ)
deriving DecidableEq

/-- Default socratic row (used only to select concrete rows in witnesses). -/
def defaultSocRow : SocRow := ⟨"", 0, [], [], []⟩

/-- One encounter checklist draw: completion with probability
`0.5 + 0.08*(attempt-1)`. -/
def encounterDraw (a : ℕ) (el : String) (s : ℕ) : (String × ℕ) × ℕ :=
  match randFloat s with
  | (r, s1) => ((el, if r < 1/2 + ((a : ℚ) - 1) * (8/100) then 1 else 0), s1)

theorem encounterDraw_fst (a : ℕ) (el : String) (s : ℕ) :
    (encounterDraw a el s).1 =
      (el, if (randFloat s).1 < 1/2 + ((a : ℚ) - 1) * (8/100) then 1 else 0) := rfl

/-- One speech metric draw: base `uniform(7.0, 8.5)`, improvement
`(attempt-1) * uniform(0.1, 0.3)`, noise `gauss(0, 0.5)`, clamped to [0,10]
after rounding. -/
def speechDraw (a : ℕ) (m : String) (s : ℕ) : (String × ℚ) × ℕ :=
  match randUniform 7 (17/2) s with
  | (b, s1) =>
    match randUniform (1/10) (3/10) s1 with
    | (imp, s2) =>
      match randGauss 0 (1/2) s2 with
      | (nz, s3) =>
        ((m, pyClamp 0 10 (round1 (b + ((a : ℚ) - 1) * imp + nz))), s3)

/-- One socratic component draw: the student base for the metric, progression
`(attempt-1) * uniform(0.1, 0.3)`, noise `gauss(0, 0.4)`, clamped to [0,5]
after rounding. -/
def socraticDraw (bases : List (String × ℚ)) (a : ℕ)
    (spec : String × String × String) (s : ℕ) : (String × ℚ) × ℕ :=
  match randUniform (1/10) (3/10) s with
  | (prog, s1) =>
    match randGauss 0 (4/10) s1 with
    | (nz, s2) =>
      ((spec.2.1,
        pyClamp 0 5 (round1 ((bases.lookup spec.2.1).getD 0 + ((a : ℚ) - 1) * prog + nz))),
       s2)

/-- The per-attempt body of `generate_socratic_metrics`: encounter checklist,
speech metrics, then socratic components. -/
def socAttemptRow (st : String) (bases : List (String × ℚ)) (a : ℕ) (s : ℕ) :
    SocRow × ℕ :=
  match mapDraw (encounterDraw a) ENCOUNTER_ELEMENTS s with
  | (enc, s1) =>
    match mapDraw (speechDraw a) SPEECH_METRICS s1 with
    | (sp, s2) =>
      match mapDraw (socraticDraw bases a) socratic_specs s2 with
      | (soc, s3) => (⟨st, a, enc, sp, soc⟩, s3)

/-- Models `random.uniform(1.2, 2.8)` for the per-student socratic base. -/
def drawSocBase (spec : String × String × String) (s : ℕ) : (String × ℚ) × ℕ :=
  match randUniform (12/10) (28/10) s with
  | (u, s1) => ((spec.2.1, u), s1)

/-- The per-student body of `generate_socratic_metrics`. -/
def socStudentBlock (num_attempts : ℕ) (st : String) (s : ℕ) : List SocRow × ℕ :=
  match mapDraw drawSocBase socratic_specs s with
  | (bases, s1) => mapDraw (socAttemptRow st bases) (List.range' 1 num_attempts) s1

theorem socStudentBlock_eq (num_attempts : ℕ) (st : String) (s : ℕ) :
    socStudentBlock num_attempts st s =
      mapDraw (socAttemptRow st (mapDraw drawSocBase socratic_specs s).1)
        (List.range' 1 num_attempts) (mapDraw drawSocBase socratic_specs s).2 := rfl

/-- `generate_socratic_metrics(students, seed, num_attempts)` (wide table).
As with the score generator, `amb` is the ambient stream state discarded by
`random.seed(seed)`. -/
def generate_socratic_metrics (amb : ℕ) (students : List String) (seed : ℕ)
    (num_attempts : ℕ) : List SocRow :=
  (mapDraw (socStudentBlock num_attempts) students (seedInit seed)).1.flatten

/-! ### Boundedness of generated scores -/

theorem mem_generate_rows {students : List String} {attempts : List ℕ} {seed : ℕ}
    {groups : List (String × List String)} {row : ScoreRow}
    (h : row ∈ (generate_rows students attempts seed groups).1) :
    ∃ st base sens bias scen mo a s,
      row = (genAttemptRow st base sens bias groups scen mo a s).1 := by
  rw [generate_rows_fst] at h
  obtain ⟨c1, hc1, hr1⟩ := List.mem_flatten.mp h
  obtain ⟨st, _, s1, hch⟩ := mem_mapDraw hc1
  subst hch
  rw [studentBlock_fst] at hr1
  obtain ⟨c2, hc2, hr2⟩ := List.mem_flatten.mp hr1
  obtain ⟨scen, _, s2, hch2⟩ := mem_mapDraw hc2
  subst hch2
  rw [scenBlock_fst] at hr2
  obtain ⟨c3, hc3, hr3⟩ := List.mem_flatten.mp hr2
  obtain ⟨mo, _, s3, hch3⟩ := mem_mapDraw hc3
  subst hch3
  obtain ⟨a, _, s4, hch4⟩ := mem_mapDraw hr3
  exact ⟨st, _, _, _, scen, mo, a, s4, hch4⟩

theorem genAttemptRow_fst_scores (st : String) (base : ℚ) (sens bias : List (String × ℚ))
    (groups : List (String × List String)) (scen mo : String) (a s : ℕ) :
    ((genAttemptRow st base sens bias groups scen mo a s).1).scores =
      (mapDraw
        (groupDraw base (((a : ℚ) - 1) * (randUniform (1/10) (3/10) s).1) sens bias
          (randGauss 0 (1/10) (randUniform (1/10) (3/10) s).2).1
          (randGauss 0 (1/10) (randGauss 0 (1/10) (randUniform (1/10) (3/10) s).2).2).1)
        groups
        (randGauss 0 (1/10) (randGauss 0 (1/10) (randUniform (1/10) (3/10) s).2).2).2).1.flatten :=
  rfl

theorem mem_genAttemptRow_scores {st : String} {base : ℚ} {sens bias : List (String × ℚ)}
    {groups : List (String × List String)} {scen mo : String} {a s : ℕ}
    {p : String × ℚ}
    (hp : p ∈ ((genAttemptRow st base sens bias groups scen mo a s).1).scores) :
    ∃ b i gs gb sm mm nz, p.2 = elementScore b i gs gb sm mm nz := by
  rw [genAttemptRow_fst_scores] at hp
  obtain ⟨es, hes, hpes⟩ := List.mem_flatten.mp hp
  obtain ⟨g, _, s5, hch⟩ := mem_mapDraw hes
  subst hch
  obtain ⟨el, _, s6, hpd⟩ := mem_mapDraw hpes
  rw [elementDraw_fst] at hpd
  exact ⟨_, _, _, _, _, _, _, by rw [hpd]⟩

theorem elementScore_bounds (b i gs gb sm mm nz : ℚ) :
    0 ≤ elementScore b i gs gb sm mm nz ∧ elementScore b i gs gb sm mm nz ≤ 4 :=
  pyClamp_bounds (by norm_num) _

theorem mem_generate_socratic {amb : ℕ} {students : List String} {seed num_attempts : ℕ}
    {row : SocRow} (h : row ∈ generate_socratic_metrics amb students seed num_attempts) :
    ∃ st bases a s, row = (socAttemptRow st bases a s).1 := by
  unfold generate_socratic_metrics at h
  obtain ⟨c1, hc1, hr1⟩ := List.mem_flatten.mp h
  obtain ⟨st, _, s1, hch⟩ := mem_mapDraw hc1
  subst hch
  rw [socStudentBlock_eq] at hr1
  obtain ⟨a, _, s2, hch2⟩ := mem_mapDraw hr1
  exact ⟨st, _, a, s2, hch2⟩

theorem speechDraw_shape (a : ℕ) (m : String) (s : ℕ) :
    ∃ x, (speechDraw a m s).1 = (m, pyClamp 0 10 x) := ⟨_, rfl⟩

theorem socraticDraw_shape (bases : List (String × ℚ)) (a : ℕ)
    (spec : String × String × String) (s : ℕ) :
    ∃ x, (socraticDraw bases a spec s).1 = (spec.2.1, pyClamp 0 5 x) := ⟨_, rfl⟩

theorem socAttemptRow_fst_encounter (st : String) (bases : List (String × ℚ)) (a s : ℕ) :
    ((socAttemptRow st bases a s).1).encounter =
      (mapDraw (encounterDraw a) ENCOUNTER_ELEMENTS s).1 := rfl

theorem socAttemptRow_fst_speech (st : String) (bases : List (String × ℚ)) (a s : ℕ) :
    ((socAttemptRow st bases a s).1).speech =
      (mapDraw (speechDraw a) SPEECH_METRICS
        (mapDraw (encounterDraw a) ENCOUNTER_ELEMENTS s).2).1 := rfl

theorem socAttemptRow_fst_socratic (st : String) (bases : List (String × ℚ)) (a s : ℕ) :
    ((socAttemptRow st bases a s).1).socratic =
      (mapDraw (socraticDraw bases a) socratic_specs
        (mapDraw (speechDraw a) SPEECH_METRICS
          (mapDraw (encounterDraw a) ENCOUNTER_ELEMENTS s).2).2).1 := rfl

theorem socAttemptRow_bounds (st : String) (bases : List (String × ℚ)) (a s : ℕ) :
    (∀ q ∈ ((socAttemptRow st bases a s).1).speech, 0 ≤ q.2 ∧ q.2 ≤ 10) ∧
    (∀ q ∈ ((socAttemptRow st bases a s).1).socratic, 0 ≤ q.2 ∧ q.2 ≤ 5) ∧
    (∀ q ∈ ((socAttemptRow st bases a s).1).encounter, q.2 = 0 ∨ q.2 = 1) := by
  refine ⟨fun q hq => ?_, fun q hq => ?_, fun q hq => ?_⟩
  · rw [socAttemptRow_fst_speech] at hq
    obtain ⟨m, _, s5, hqd⟩ := mem_mapDraw hq
    obtain ⟨x, hx⟩ := speechDraw_shape a m s5
    rw [hqd, hx]
    exact pyClamp_bounds (by norm_num) x
  · rw [socAttemptRow_fst_socratic] at hq
    obtain ⟨spec, _, s5, hqd⟩ := mem_mapDraw hq
    obtain ⟨x, hx⟩ := socraticDraw_shape bases a spec s5
    rw [hqd, hx]
    exact pyClamp_bounds (by norm_num) x
  · rw [socAttemptRow_fst_encounter] at hq
    obtain ⟨el, _, s5, hqd⟩ := mem_mapDraw hq
    rw [hqd, encounterDraw_fst]
    rcases ite_eq_or_eq ((randFloat s5).1 < 1/2 + ((a : ℚ) - 1) * (8/100)) 1 0 with h | h
    · exact Or.inr (by rw [h])
    · exact Or.inl (by rw [h])

/-- C2: every generated Element score lies in [0, 4]; every speech-quality
score lies in [0, 10]; every socratic dialogue component score lies in
[0, 5]; and every encounter completion flag is 0 or 1 (each score is clamped
into its scale after rounding, and each flag is an if-then-else on 1/0). -/
theorem c2_generated_scores_bounded :
    (∀ amb students attempts seed groups row,
        row ∈ generate_mock_data amb students attempts seed groups →
        ∀ p ∈ row.scores, 0 ≤ p.2 ∧ p.2 ≤ 4) ∧
    (∀ amb students seed num_attempts row,
        row ∈ generate_socratic_metrics amb students seed num_attempts →
        (∀ q ∈ row.speech, 0 ≤ q.2 ∧ q.2 ≤ 10) ∧
        (∀ q ∈ row.socratic, 0 ≤ q.2 ∧ q.2 ≤ 5) ∧
        (∀ q ∈ row.encounter, q.2 = 0 ∨ q.2 = 1)) := by
  constructor
  · intro amb students attempts seed groups row hrow p hp
    have h1 : row ∈ (generate_rows students attempts seed groups).1 :=
      (List.rotate_perm _ _).mem_iff.mp hrow
    obtain ⟨st, base, sens, bias, scen, mo, a, s, hr⟩ := mem_generate_rows h1
    rw [hr] at hp
    obtain ⟨b, i, gs, gb, sm, mm, nz, hp2⟩ := mem_genAttemptRow_scores hp
    rw [hp2]
    exact elementScore_bounds b i gs gb sm mm nz
  · intro amb students seed num_attempts row hrow
    obtain ⟨st, bases, a, s, hr⟩ := mem_generate_socratic hrow
    rw [hr]
    exact socAttemptRow_bounds st bases a s

set_option maxRecDepth 4000 in
/-- Witness for C2 at a concrete input: the first score of the first row
generated for one student and one attempt, and the first speech, socratic
and encounter entries of the corresponding auxiliary table. -/
theorem c2_generated_scores_bounded_witness :
    (0 ≤ (((generate_mock_data 0 ["S"] [1] 0 [("G", ["e"])]).headD defaultRow).scores.headD
        ("", 5)).2 ∧
      (((generate_mock_data 0 ["S"] [1] 0 [("G", ["e"])]).headD defaultRow).scores.headD
        ("", 5)).2 ≤ 4) ∧
    (0 ≤ (((generate_socratic_metrics 0 ["S"] 0 1).headD defaultSocRow).speech.headD
        ("", 11)).2 ∧
      (((generate_socratic_metrics 0 ["S"] 0 1).headD defaultSocRow).speech.headD
        ("", 11)).2 ≤ 10) ∧
    (0 ≤ (((generate_socratic_metrics 0 ["S"] 0 1).headD defaultSocRow).socratic.headD
        ("", 6)).2 ∧
      (((generate_socratic_metrics 0 ["S"] 0 1).headD defaultSocRow).socratic.headD
        ("", 6)).2 ≤ 5) ∧
    ((((generate_socratic_metrics 0 ["S"] 0 1).headD defaultSocRow).encounter.headD
        ("", 7)).2 = 0 ∨
      (((generate_socratic_metrics 0 ["S"] 0 1).headD defaultSocRow).encounter.headD
        ("", 7)).2 = 1) := by
  have hsoc := c2_generated_scores_bounded.2 0 ["S"] 0 1
    ((generate_socratic_metrics 0 ["S"] 0 1).headD defaultSocRow)
    (headD_mem _ (of_decide_eq_true (by with_unfolding_all rfl)))
  exact ⟨c2_generated_scores_bounded.1 0 ["S"] [1] 0 [("G", ["e"])]
      ((generate_mock_data 0 ["S"] [1] 0 [("G", ["e"])]).headD defaultRow)
      (headD_mem _ (of_decide_eq_true (by with_unfolding_all rfl)))
      _ (headD_mem _ (of_decide_eq_true (by with_unfolding_all rfl))),
    hsoc.1 _ (headD_mem _ (of_decide_eq_true (by with_unfolding_all rfl))),
    hsoc.2.1 _ (headD_mem _ (of_decide_eq_true (by with_unfolding_all rfl))),
    hsoc.2.2 _ (headD_mem _ (of_decide_eq_true (by with_unfolding_all rfl)))⟩

/-! ### Stream consumption of the score generator (modifier draw discipline) -/

theorem groupDraw_state (base improvement : ℚ) (sens bias : List (String × ℚ))
    (smod mmod : ℚ) (g : String × List String) (s : ℕ) :
    (groupDraw base improvement sens bias smod mmod g s).2 = s + g.2.length := by
  have h := mapDraw_state_const
    (f := elementDraw base improvement ((sens.lookup g.1).getD 0)
      ((bias.lookup g.1).getD 0) smod mmod) (k := 1) (fun el s => rfl) g.2 s
  unfold groupDraw
  rw [h, one_mul]

theorem genAttemptRow_state (st : String) (base : ℚ) (sens bias : List (String × ℚ))
    (groups : List (String × List String)) (scen mo : String) (a s : ℕ) :
    (genAttemptRow st base sens bias groups scen mo a s).2 =
      s + (3 + (groups.map (fun g => g.2.length)).sum) := by
  have h1 : (genAttemptRow st base sens bias groups scen mo a s).2 =
      (mapDraw
        (groupDraw base (((a : ℚ) - 1) * (randUniform (1/10) (3/10) s).1) sens bias
          (randGauss 0 (1/10) (randUniform (1/10) (3/10) s).2).1
          (randGauss 0 (1/10) (randGauss 0 (1/10) (randUniform (1/10) (3/10) s).2).2).1)
        groups (s + 1 + 1 + 1)).2 := rfl
  rw [h1, mapDraw_state_sum (fun g s => groupDraw_state _ _ _ _ _ _ g s)]
  omega

theorem modeBlock_state (st : String) (base : ℚ) (sens bias : List (String × ℚ))
    (groups : List (String × List String)) (attempts : List ℕ) (scen mo : String)
    (s : ℕ) :
    (modeBlock st base sens bias groups attempts scen mo s).2 =
      s + (3 + (groups.map (fun g => g.2.length)).sum) * attempts.length := by
  exact mapDraw_state_const (fun a s => genAttemptRow_state st base sens bias groups scen mo a s)
    attempts s

theorem scenBlock_state (st : String) (base : ℚ) (sens bias : List (String × ℚ))
    (groups : List (String × List String)) (attempts : List ℕ) (scen : String)
    (s : ℕ) :
    (scenBlock st base sens bias groups attempts scen s).2 =
      s + 3 * ((3 + (groups.map (fun g => g.2.length)).sum) * attempts.length) := by
  have h1 : (scenBlock st base sens bias groups attempts scen s).2 =
      (mapDraw (modeBlock st base sens bias groups attempts scen) modeLabels s).2 := rfl
  rw [h1, mapDraw_state_const (fun mo s => modeBlock_state st base sens bias groups attempts scen mo s)]
  simp [modeLabels]
  ring

theorem studentBlock_state (baselines sens : List (String × ℚ))
    (groups : List (String × List String)) (attempts : List ℕ) (st : String)
    (s : ℕ) :
    (studentBlock baselines sens groups attempts st s).2 =
      s + (groups.length +
        9 * ((3 + (groups.map (fun g => g.2.length)).sum) * attempts.length)) := by
  have h1 : (studentBlock baselines sens groups attempts st s).2 =
      (mapDraw
        (scenBlock st ((baselines.lookup st).getD 0) sens
          (mapDraw drawBias groups s).1 groups attempts)
        scenarioLabels (mapDraw drawBias groups s).2).2 := rfl
  rw [h1, mapDraw_state_const (fun scen s => scenBlock_state _ _ _ _ _ _ scen s),
    mapDraw_state_const (f := drawBias) (k := 1) (fun g s => rfl)]
  simp [scenarioLabels]
  ring

/-- C4 (amended): total stream consumption of the score generator.  Each
attempt iteration of each (student, scenario, mode) consumes exactly
`3 + #elements` draws — one improvement factor, one scenario modifier, one
mode modifier and one noise term per element — so the two modifiers are
drawn afresh for every attempt, not once per (scenario, mode) combination;
on top of that the generator consumes one baseline per student, one
sensitivity per group and, per student, one bias per group. -/
theorem c4_modifier_draws_per_attempt (students : List String) (attempts : List ℕ)
    (seed : ℕ) (groups : List (String × List String)) :
    (generate_rows students attempts seed groups).2 =
      seedInit seed + students.length + groups.length +
        students.length *
          (groups.length +
            9 * ((3 + (groups.map (fun g => g.2.length)).sum) * attempts.length)) := by
  have h1 : (generate_rows students attempts seed groups).2 =
      (mapDraw
        (studentBlock (mapDraw drawBaseline students (seedInit seed)).1
          (mapDraw drawSensitivity groups
            (mapDraw drawBaseline students (seedInit seed)).2).1
          groups attempts)
        students
        (mapDraw drawSensitivity groups
          (mapDraw drawBaseline students (seedInit seed)).2).2).2 := rfl
  rw [h1, mapDraw_state_const (fun st s => studentBlock_state _ _ _ _ st s),
    mapDraw_state_const (f := drawSensitivity) (k := 1) (fun g s => rfl),
    mapDraw_state_const (f := drawBaseline) (k := 1) (fun st s => rfl)]
  ring

/-- C4 (counterexample): in the output of the score generator for one
student, attempts [1, 2] and seed 0, the rows at positions 4 and 5 belong to
the same student, the same scenario and the same mode but carry different
scenario modifier values (and different mode modifier values), refuting the
claim that the modifiers are drawn once per (scenario, mode) combination and
shared across attempts. -/
theorem c4_counterexample :
    ((generate_mock_data 0 ["S"] [1, 2] 0 GROUPS).getD 4 defaultRow).student_id =
        ((generate_mock_data 0 ["S"] [1, 2] 0 GROUPS).getD 5 defaultRow).student_id ∧
      ((generate_mock_data 0 ["S"] [1, 2] 0 GROUPS).getD 4 defaultRow).scenarioLabel =
        ((generate_mock_data 0 ["S"] [1, 2] 0 GROUPS).getD 5 defaultRow).scenarioLabel ∧
      ((generate_mock_data 0 ["S"] [1, 2] 0 GROUPS).getD 4 defaultRow).modeLabel =
        ((generate_mock_data 0 ["S"] [1, 2] 0 GROUPS).getD 5 defaultRow).modeLabel ∧
      ((generate_mock_data 0 ["S"] [1, 2] 0 GROUPS).getD 4 defaultRow).smod ≠
        ((generate_mock_data 0 ["S"] [1, 2] 0 GROUPS).getD 5 defaultRow).smod ∧
      ((generate_mock_data 0 ["S"] [1, 2] 0 GROUPS).getD 4 defaultRow).mmod ≠
        ((generate_mock_data 0 ["S"] [1, 2] 0 GROUPS).getD 5 defaultRow).mmod :=
  of_decide_eq_true (by with_unfolding_all rfl)

/-! ### Keyed seed derivation (`generate_ai_feedback_context`) -/

/-- Models the builtin `hash()` applied to a `str` in CPython: since Python
3.3 string hashing is salted with a per-process value (`PYTHONHASHSEED`), so
the result is a function of the salt and of the characters — two processes
with different salts hash the same string to different values.  The concrete
mixing below stands in for SipHash; what matters is that the salt genuinely
enters the result. -/
def pyHash (salt : ℕ) (s : String) : ℤ :=
  ((s.data.foldl (fun h c => (h * 31 + c.toNat + salt) % 1000003)
    (salt % 1000003) : ℕ) : ℤ)

/-- The derived seed of `generate_ai_feedback_context`:
`(seed + abs(hash(student_id)) + attempt) % (2**32 - 1)`. -/
def combined_seed (salt : ℕ) (seed : ℕ) (student_id : String) (attempt : ℕ) : ℕ :=
  (seed + (pyHash salt student_id).natAbs + attempt) % (2 ^ 32 - 1)

/-- C5 (code evaluated at the failing input): the derived seed for student
"S01", attempt 1, base seed 42 differs between a process whose string-hash
salt is 0 and one whose salt is 1, so the derivation is not a deterministic
function of the key alone and is not stable across runs. -/
theorem c5_combined_seed_salt_dependent :
    combined_seed 0 42 "S01" 1 ≠ combined_seed 1 42 "S01" 1 :=
  of_decide_eq_true (by with_unfolding_all rfl)

/-! ### Miss-graph builder (`streamlit_app.py`, network centrality section) -/

/-- One row of the analyzed score table: a student id and the element score
cells.  A missing cell (`none`) models a pandas NaN. -/
structure TRow where
  student_id : String
  cells : List (String × Option ℚ)
deriving DecidableEq

/-- The analyzed score table: column names plus rows. -/
structure Table where
  cols : List String
  rows : List TRow
deriving DecidableEq

/-- Cell lookup; absent keys behave like NaN. -/
def cell (r : TRow) (c : String) : Option ℚ :=
  match r.cells.lookup c with
  | some v => v
  | none => none

/-- The miss indicator `score < miss_threshold` of one cell (pandas
comparisons with NaN yield False). -/
def missB (thr : ℚ) (r : TRow) (c : String) : Bool :=
  match cell r c with
  | some v => decide (v < thr)
  | none => false

/-- Per-student ever-missed flag for one element:
`cohort_misses.groupby('student_id')[elements].any()` — true when any of the
rows of that student misses the element. -/
def ever (t : Table) (thr : ℚ) (st c : String) : Bool :=
  t.rows.any (fun r => r.student_id == st && missB thr r c)

/-- The set of students of the table (the groupby keys). -/
def studentFinset (t : Table) : Finset String :=
  (t.rows.map (fun r => r.student_id)).toFinset

/-- `(student_misses[c1] & student_misses[c2]).sum()`: the number of students
whose ever-missed flag is true for both elements. -/
def coMiss (t : Table) (thr : ℚ) (c1 c2 : String) : ℕ :=
  ((studentFinset t).filter (fun st => ever t thr st c1 = true ∧ ever t thr st c2 = true)).card

/-- The adaptive edge threshold: when the active element universe has at
most 4 elements the effective minimum co-occurrence is
`max(1, min(min_misses, 1))`, otherwise `min_misses`. -/
def effective_min_misses (numElems : ℕ) (min_misses : ℕ) : ℕ :=
  if numElems ≤ 4 then max 1 (min min_misses 1) else min_misses

/-- Ordered pairs `(xs[i], xs[j])` with `i < j`, in iteration order — the
shape of the double loop `for i, c1 in enumerate(...): for c2 in [...][i+1:]`. -/
def orderedPairs : List α → List (α × α)
  | [] => []
  | x :: xs => xs.map (fun y => (x, y)) ++ orderedPairs xs

/-- A miss graph: nodes (with their `miss_count` attribute) and weighted
edges. -/
structure MissGraph where
  nodes : List (String × ℕ)
  edges : List (String × String × ℕ)
deriving DecidableEq

/-- The element-level miss graph of the centrality section: a node per
element present in the table, and an edge between two elements whenever the
number of students who ever missed both reaches the effective threshold,
weighted by that number. -/
def element_graph (t : Table) (elems : List String) (thr : ℚ) (min_misses : ℕ) :
    MissGraph :=
  let eff := effective_min_misses elems.length min_misses
  ⟨(elems.filter (fun c => c ∈ t.cols)).map
      (fun c => (c, t.rows.countP (fun r => missB thr r c))),
   (orderedPairs elems).filterMap (fun p =>
      if eff ≤ coMiss t thr p.1 p.2 then some (p.1, p.2, coMiss t thr p.1 p.2)
      else none)⟩

/-- The elements of a group restricted to the active element universe
(`[e for e in GROUPS[g] if e in centrality_elements]`). -/
def overlapElems (elems : List String) (g : String × List String) : List String :=
  g.2.filter (fun e => e ∈ elems)

/-- The domain-level edge weight: the sum, over all pairs of one element
from each domain, of the per-pair count of students who ever missed both. -/
def domainWeight (t : Table) (thr : ℚ) (e1s e2s : List String) : ℕ :=
  (e1s.flatMap (fun e1 => e2s.map (fun e2 => coMiss t thr e1 e2))).sum

/-- The total miss count of a domain node:
`cohort_misses[group_overlap].apply(sum, axis=1).sum()`. -/
def domainMissCount (t : Table) (thr : ℚ) (es : List String) : ℕ :=
  (t.rows.map (fun r => es.countP (fun e => missB thr r e))).sum

/-- The domain-level miss graph: a node per group that overlaps the active
element universe; an edge between two groups when the summed cross-pair
co-miss count reaches `effective_min_misses * len(g1) * len(g2) / 4`
(a float comparison in the source, modelled exactly in ℚ). -/
def domain_graph (t : Table) (groups : List (String × List String))
    (elems : List String) (thr : ℚ) (min_misses : ℕ) : MissGraph :=
  let eff := effective_min_misses elems.length min_misses
  let nodeGroups := groups.filter (fun g => decide (overlapElems elems g ≠ []))
  ⟨nodeGroups.map (fun g => (g.1, domainMissCount t thr (overlapElems elems g))),
   (orderedPairs nodeGroups).filterMap (fun p =>
      let e1s := overlapElems elems p.1
      let e2s := overlapElems elems p.2
      if e1s ≠ [] ∧ e2s ≠ [] then
        if (eff : ℚ) * e1s.length * e2s.length / 4 ≤ (domainWeight t thr e1s e2s : ℚ) then
          some (p.1.1, p.2.1, domainWeight t thr e1s e2s)
        else none
      else none)⟩

/-- The number of students whose ever-missed flag is true for both of two
element sets (a domain node is "ever missed" by a student when any of its
elements is) — the weight the claim asserts for domain-level edges. -/
def domainCoStudents (t : Table) (thr : ℚ) (e1s e2s : List String) : ℕ :=
  ((studentFinset t).filter (fun st =>
    e1s.any (fun e => ever t thr st e) = true ∧
    e2s.any (fun e => ever t thr st e) = true)).card

/-- C3 (counterexample): a table with a single student who misses all four
elements of two two-element domains.  The domain-level graph carries the
edge (G1, G2) with weight 4 — the sum over the four cross element pairs —
although only 1 student has the ever-missed flag for both domains, so the
edge weight does not equal the number of students co-missing the two
endpoint nodes. -/
theorem c3_counterexample :
    (domain_graph
        ⟨["a1", "a2", "b1", "b2"],
         [⟨"S", [("a1", some 0), ("a2", some 0), ("b1", some 0), ("b2", some 0)]⟩]⟩
        [("G1", ["a1", "a2"]), ("G2", ["b1", "b2"])]
        ["a1", "a2", "b1", "b2"] 2 1).edges = [("G1", "G2", 4)] ∧
      domainCoStudents
        ⟨["a1", "a2", "b1", "b2"],
         [⟨"S", [("a1", some 0), ("a2", some 0), ("b1", some 0), ("b2", some 0)]⟩]⟩
        2 ["a1", "a2"] ["b1", "b2"] = 1 ∧ (4 : ℕ) ≠ 1 :=
  of_decide_eq_true (by with_unfolding_all rfl)

/-- C3 (amended): at element granularity every edge weight equals the number
of students whose ever-missed flag holds for both endpoint elements, and an
edge exists only if that weight reaches the effective threshold; at domain
granularity the weight is instead the sum over all cross element pairs of
the per-pair student co-miss counts, and the edge condition scales the
effective threshold by `len(g1) * len(g2) / 4`. -/
theorem c3_miss_graph_edges :
    (∀ (t : Table) (elems : List String) (thr : ℚ) (m : ℕ)
        (e : String × String × ℕ), e ∈ (element_graph t elems thr m).edges →
        e.2.2 = coMiss t thr e.1 e.2.1 ∧ effective_min_misses elems.length m ≤ e.2.2) ∧
    (∀ (t : Table) (groups : List (String × List String)) (elems : List String)
        (thr : ℚ) (m : ℕ) (e : String × String × ℕ),
        e ∈ (domain_graph t groups elems thr m).edges →
        ∃ g1 g2 : String × List String,
          e.1 = g1.1 ∧ e.2.1 = g2.1 ∧
          e.2.2 = domainWeight t thr (overlapElems elems g1) (overlapElems elems g2) ∧
          (effective_min_misses elems.length m : ℚ) * (overlapElems elems g1).length *
              (overlapElems elems g2).length / 4 ≤ (e.2.2 : ℚ)) := by
  constructor
  · intro t elems thr m e he
    simp only [element_graph] at he
    obtain ⟨p, _, hf⟩ := List.mem_filterMap.mp he
    by_cases h : effective_min_misses elems.length m ≤ coMiss t thr p.1 p.2
    · rw [if_pos h] at hf
      obtain rfl := Option.some.inj hf
      exact ⟨rfl, h⟩
    · rw [if_neg h] at hf
      exact absurd hf (by simp)
  · intro t groups elems thr m e he
    simp only [domain_graph] at he
    obtain ⟨p, _, hf⟩ := List.mem_filterMap.mp he
    by_cases h1 : overlapElems elems p.1 ≠ [] ∧ overlapElems elems p.2 ≠ []
    · rw [if_pos h1] at hf
      by_cases h2 : (effective_min_misses elems.length m : ℚ) *
          (overlapElems elems p.1).length * (overlapElems elems p.2).length / 4 ≤
          (domainWeight t thr (overlapElems elems p.1) (overlapElems elems p.2) : ℚ)
      · rw [if_pos h2] at hf
        obtain rfl := Option.some.inj hf
        exact ⟨p.1, p.2, rfl, rfl, rfl, h2⟩
      · rw [if_neg h2] at hf
        exact absurd hf (by simp)
    · rw [if_neg h1] at hf
      exact absurd hf (by simp)

/-- Witness for C3 (amended) at concrete inputs: the element-level edge
(a1, a2, 1) of the one-student table and the domain-level edge
(G1, G2, 4). -/
theorem c3_miss_graph_edges_witness :
    ((("a1", "a2",
        coMiss ⟨["a1", "a2", "b1", "b2"],
          [⟨"S", [("a1", some 0), ("a2", some 0), ("b1", some 0), ("b2", some 0)]⟩]⟩
          2 "a1" "a2") : String × String × ℕ).2.2 =
      coMiss ⟨["a1", "a2", "b1", "b2"],
        [⟨"S", [("a1", some 0), ("a2", some 0), ("b1", some 0), ("b2", some 0)]⟩]⟩
        2 "a1" "a2" ∧
      effective_min_misses 4 1 ≤
        coMiss ⟨["a1", "a2", "b1", "b2"],
          [⟨"S", [("a1", some 0), ("a2", some 0), ("b1", some 0), ("b2", some 0)]⟩]⟩
          2 "a1" "a2") ∧
    ∃ g1 g2 : String × List String,
      ("G1" : String) = g1.1 ∧ ("G2" : String) = g2.1 ∧
      (4 : ℕ) = domainWeight
        ⟨["a1", "a2", "b1", "b2"],
         [⟨"S", [("a1", some 0), ("a2", some 0), ("b1", some 0), ("b2", some 0)]⟩]⟩
        2 (overlapElems ["a1", "a2", "b1", "b2"] g1)
          (overlapElems ["a1", "a2", "b1", "b2"] g2) ∧
      (effective_min_misses 4 1 : ℚ) * (overlapElems ["a1", "a2", "b1", "b2"] g1).length *
          (overlapElems ["a1", "a2", "b1", "b2"] g2).length / 4 ≤ ((4 : ℕ) : ℚ) := by
  constructor
  · have h := c3_miss_graph_edges.1
      ⟨["a1", "a2", "b1", "b2"],
       [⟨"S", [("a1", some 0), ("a2", some 0), ("b1", some 0), ("b2", some 0)]⟩]⟩
      ["a1", "a2", "b1", "b2"] 2 1
      ("a1", "a2",
        coMiss ⟨["a1", "a2", "b1", "b2"],
          [⟨"S", [("a1", some 0), ("a2", some 0), ("b1", some 0), ("b2", some 0)]⟩]⟩
          2 "a1" "a2")
      (of_decide_eq_true (by with_unfolding_all rfl))
    exact h
  · have h := c3_miss_graph_edges.2
      ⟨["a1", "a2", "b1", "b2"],
       [⟨"S", [("a1", some 0), ("a2", some 0), ("b1", some 0), ("b2", some 0)]⟩]⟩
      [("G1", ["a1", "a2"]), ("G2", ["b1", "b2"])]
      ["a1", "a2", "b1", "b2"] 2 1 ("G1", "G2", 4)
      (of_decide_eq_true (by with_unfolding_all rfl))
    exact h

/-- C8: whenever the active element universe has at most 4 elements the
effective minimum co-occurrence threshold is 1 regardless of the configured
value, and with a 4-element universe and `min_misses = 5` any element pair
whose student co-miss count is at least 1 still yields an edge. -/
theorem c8_adaptive_threshold :
    (∀ numElems m, numElems ≤ 4 → effective_min_misses numElems m = 1) ∧
    (∀ (t : Table) (elems : List String) (thr : ℚ) (e1 e2 : String),
        elems.length = 4 → (e1, e2) ∈ orderedPairs elems →
        1 ≤ coMiss t thr e1 e2 →
        (e1, e2, coMiss t thr e1 e2) ∈ (element_graph t elems thr 5).edges) := by
  constructor
  · intro numElems m h
    unfold effective_min_misses
    rw [if_pos h]
    omega
  · intro t elems thr e1 e2 hlen hp hco
    simp only [element_graph]
    refine List.mem_filterMap.mpr ⟨(e1, e2), hp, ?_⟩
    have heff : effective_min_misses elems.length 5 = 1 := by
      rw [hlen]
      rfl
    rw [heff, if_pos hco]

/-- Witness for C8: the universe of 4 elements with `min_misses = 5` on the
one-student table, where the pair (a1, b1) has co-miss count 1 and indeed
appears as an edge. -/
theorem c8_adaptive_threshold_witness :
    effective_min_misses 4 5 = 1 ∧
    ("a1", "b1",
        coMiss ⟨["a1", "a2", "b1", "b2"],
          [⟨"S", [("a1", some 0), ("a2", some 0), ("b1", some 0), ("b2", some 0)]⟩]⟩
          2 "a1" "b1") ∈
      (element_graph
        ⟨["a1", "a2", "b1", "b2"],
         [⟨"S", [("a1", some 0), ("a2", some 0), ("b1", some 0), ("b2", some 0)]⟩]⟩
        ["a1", "a2", "b1", "b2"] 2 5).edges :=
  ⟨c8_adaptive_threshold.1 4 5 (by omega),
   c8_adaptive_threshold.2
     ⟨["a1", "a2", "b1", "b2"],
      [⟨"S", [("a1", some 0), ("a2", some 0), ("b1", some 0), ("b2", some 0)]⟩]⟩
     ["a1", "a2", "b1", "b2"] 2 "a1" "b1" rfl
     (of_decide_eq_true (by with_unfolding_all rfl))
     (of_decide_eq_true (by with_unfolding_all rfl))⟩

/-! ### Correlation analyzer (`streamlit_app.py`, correlation plot section)

The calls into `scipy.stats.pearsonr` are modelled by an abstract function
`pearson` returning the pair (r, p-value); the claims about the analyzer
concern its filtering structure and hold for every such function.  The
inline Fisher-transform computation is verified separately as `fisherCI`
over the reals. -/

/-- One output record of the correlation analyzer. -/
structure CPair where
  e1 : String
  e2 : String
  r : ℚ
  p : ℚ
  ciLower : ℚ
  ciUpper : ℚ
  n : ℕ
deriving DecidableEq

/-- `combined_cohort_data[[elem1, elem2]].dropna()`: the rows where both
values are present, as value pairs. -/
def validData (t : Table) (e1 e2 : String) : List (ℚ × ℚ) :=
  t.rows.filterMap (fun r =>
    match cell r e1, cell r e2 with
    | some a, some b => some (a, b)
    | _, _ => none)

/-- The correlation loop: for every ordered element pair with both columns
present, at least 4 valid paired observations and p-value below the cutoff,
emit a record with r, p, the confidence bounds and the sample size. -/
def correlation_pairs (pearson : List (ℚ × ℚ) → ℚ × ℚ) (ci : ℚ → ℕ → ℚ × ℚ)
    (t : Table) (elems : List String) (max_p : ℚ) : List CPair :=
  (orderedPairs elems).filterMap (fun pr =>
    if pr.1 ∈ t.cols ∧ pr.2 ∈ t.cols then
      if 3 < (validData t pr.1 pr.2).length then
        if (pearson (validData t pr.1 pr.2)).2 < max_p then
          some ⟨pr.1, pr.2, (pearson (validData t pr.1 pr.2)).1,
            (pearson (validData t pr.1 pr.2)).2,
            (ci (pearson (validData t pr.1 pr.2)).1 (validData t pr.1 pr.2).length).1,
            (ci (pearson (validData t pr.1 pr.2)).1 (validData t pr.1 pr.2).length).2,
            (validData t pr.1 pr.2).length⟩
        else none
      else none
    else none)

/-- C7: for every ordered element pair with both columns present, a record
for that pair is emitted if and only if the pair has at least 4 valid paired
observations and its p-value is strictly below the configured cutoff; and no
emitted record has `p ≥ max_p_value`.  This holds for every model `pearson`
of the scipy call and every model `ci` of the interval computation. -/
theorem c7_correlation_pairs_filter (pearson : List (ℚ × ℚ) → ℚ × ℚ)
    (ci : ℚ → ℕ → ℚ × ℚ) (t : Table) (elems : List String) (max_p : ℚ)
    (e1 e2 : String) (hp : (e1, e2) ∈ orderedPairs elems)
    (hc : e1 ∈ t.cols ∧ e2 ∈ t.cols) :
    ((∃ cp ∈ correlation_pairs pearson ci t elems max_p, cp.e1 = e1 ∧ cp.e2 = e2) ↔
      (4 ≤ (validData t e1 e2).length ∧ (pearson (validData t e1 e2)).2 < max_p)) ∧
    ∀ cp ∈ correlation_pairs pearson ci t elems max_p, cp.p < max_p := by
  constructor
  · constructor
    · rintro ⟨cp, hcp, he1, he2⟩
      obtain ⟨pr, _, hf⟩ := List.mem_filterMap.mp hcp
      by_cases h1 : pr.1 ∈ t.cols ∧ pr.2 ∈ t.cols
      · rw [if_pos h1] at hf
        by_cases h2 : 3 < (validData t pr.1 pr.2).length
        · rw [if_pos h2] at hf
          by_cases h3 : (pearson (validData t pr.1 pr.2)).2 < max_p
          · rw [if_pos h3] at hf
            obtain rfl := Option.some.inj hf
            have hpr1 : pr.1 = e1 := he1
            have hpr2 : pr.2 = e2 := he2
            rw [hpr1, hpr2] at h2 h3
            exact ⟨by omega, h3⟩
          · rw [if_neg h3] at hf
            exact absurd hf (by simp)
        · rw [if_neg h2] at hf
          exact absurd hf (by simp)
      · rw [if_neg h1] at hf
        exact absurd hf (by simp)
    · rintro ⟨h4, hpv⟩
      refine ⟨⟨e1, e2, (pearson (validData t e1 e2)).1, (pearson (validData t e1 e2)).2,
        (ci (pearson (validData t e1 e2)).1 (validData t e1 e2).length).1,
        (ci (pearson (validData t e1 e2)).1 (validData t e1 e2).length).2,
        (validData t e1 e2).length⟩,
        List.mem_filterMap.mpr ⟨(e1, e2), hp, ?_⟩, rfl, rfl⟩
      rw [if_pos hc, if_pos (show 3 < (validData t e1 e2).length by omega), if_pos hpv]
  · intro cp hcp
    obtain ⟨pr, _, hf⟩ := List.mem_filterMap.mp hcp
    by_cases h1 : pr.1 ∈ t.cols ∧ pr.2 ∈ t.cols
    · rw [if_pos h1] at hf
      by_cases h2 : 3 < (validData t pr.1 pr.2).length
      · rw [if_pos h2] at hf
        by_cases h3 : (pearson (validData t pr.1 pr.2)).2 < max_p
        · rw [if_pos h3] at hf
          obtain rfl := Option.some.inj hf
          exact h3
        · rw [if_neg h3] at hf
          exact absurd hf (by simp)
      · rw [if_neg h2] at hf
        exact absurd hf (by simp)
    · rw [if_neg h1] at hf
      exact absurd hf (by simp)

/-- Witness for C7 at a concrete input: a two-column table with 4 complete
rows, the constant model `pearson = (0, 0)`, the degenerate interval model,
and cutoff 1. -/
theorem c7_correlation_pairs_filter_witness :
    ((∃ cp ∈ correlation_pairs (fun _ => ((0 : ℚ), (0 : ℚ))) (fun r _ => (r, r))
          ⟨["a", "b"],
           [⟨"S1", [("a", some 1), ("b", some 2)]⟩,
            ⟨"S2", [("a", some 2), ("b", some 1)]⟩,
            ⟨"S3", [("a", some 3), ("b", some 4)]⟩,
            ⟨"S4", [("a", some 4), ("b", some 3)]⟩]⟩
          ["a", "b"] 1, cp.e1 = "a" ∧ cp.e2 = "b") ↔
      (4 ≤ (validData
          ⟨["a", "b"],
           [⟨"S1", [("a", some 1), ("b", some 2)]⟩,
            ⟨"S2", [("a", some 2), ("b", some 1)]⟩,
            ⟨"S3", [("a", some 3), ("b", some 4)]⟩,
            ⟨"S4", [("a", some 4), ("b", some 3)]⟩]⟩ "a" "b").length ∧
        ((fun (_ : List (ℚ × ℚ)) => ((0 : ℚ), (0 : ℚ)))
          (validData
            ⟨["a", "b"],
             [⟨"S1", [("a", some 1), ("b", some 2)]⟩,
              ⟨"S2", [("a", some 2), ("b", some 1)]⟩,
              ⟨"S3", [("a", some 3), ("b", some 4)]⟩,
              ⟨"S4", [("a", some 4), ("b", some 3)]⟩]⟩ "a" "b")).2 < 1)) ∧
    ∀ cp ∈ correlation_pairs (fun _ => ((0 : ℚ), (0 : ℚ))) (fun r _ => (r, r))
        ⟨["a", "b"],
         [⟨"S1", [("a", some 1), ("b", some 2)]⟩,
          ⟨"S2", [("a", some 2), ("b", some 1)]⟩,
          ⟨"S3", [("a", some 3), ("b", some 4)]⟩,
          ⟨"S4", [("a", some 4), ("b", some 3)]⟩]⟩
        ["a", "b"] 1, cp.p < 1 :=
  c7_correlation_pairs_filter (fun _ => ((0 : ℚ), (0 : ℚ))) (fun r _ => (r, r))
    ⟨["a", "b"],
     [⟨"S1", [("a", some 1), ("b", some 2)]⟩,
      ⟨"S2", [("a", some 2), ("b", some 1)]⟩,
      ⟨"S3", [("a", some 3), ("b", some 4)]⟩,
      ⟨"S4", [("a", some 4), ("b", some 3)]⟩]⟩
    ["a", "b"] 1 "a" "b"
    (of_decide_eq_true (by with_unfolding_all rfl))
    (of_decide_eq_true (by with_unfolding_all rfl))

/-! ### The Fisher confidence interval computation -/

/-- `np.arctanh` on the reals. -/
noncomputable def artanhR (x : ℝ) : ℝ := Real.log ((1 + x) / (1 - x)) / 2

/-- The inline 95% confidence interval computation: when `|r| < 0.999`,
`z = arctanh(r)`, `se = 1/sqrt(n-3)`, bounds `tanh(z ∓ 1.96*se)`; otherwise
the degenerate interval `(r, r)`. -/
noncomputable def fisherCI (r : ℝ) (n : ℕ) : ℝ × ℝ :=
  if |r| < 0.999 then
    (Real.tanh (artanhR r - 1.96 * (1 / Real.sqrt ((n : ℝ) - 3))),
     Real.tanh (artanhR r + 1.96 * (1 / Real.sqrt ((n : ℝ) - 3))))
  else (r, r)

theorem tanh_exp_form (x : ℝ) :
    Real.tanh x = (Real.exp (2*x) - 1) / (Real.exp (2*x) + 1) := by
  rw [Real.tanh_eq_sinh_div_cosh, Real.sinh_eq, Real.cosh_eq]
  have h0 : Real.exp x ≠ 0 := (Real.exp_pos x).ne.symm
  have h1 : Real.exp (2*x) = Real.exp x * Real.exp x := by
    rw [two_mul, Real.exp_add]
  have h2 : Real.exp x + Real.exp (-x) ≠ 0 := by positivity
  have h3 : Real.exp (2*x) + 1 ≠ 0 := by positivity
  rw [h1] at h3 ⊢
  rw [Real.exp_neg] at h2 ⊢
  field_simp

theorem tanh_strictMono : StrictMono Real.tanh := by
  intro a b hab
  rw [tanh_exp_form, tanh_exp_form]
  have ha : (0:ℝ) < Real.exp (2*a) := Real.exp_pos _
  have hb : (0:ℝ) < Real.exp (2*b) := Real.exp_pos _
  have huv : Real.exp (2*a) < Real.exp (2*b) := Real.exp_lt_exp.mpr (by linarith)
  rw [div_lt_div_iff₀ (by linarith) (by linarith)]
  nlinarith

theorem tanh_artanhR {r : ℝ} (h : |r| < 1) : Real.tanh (artanhR r) = r := by
  have h1 := abs_lt.mp h
  have hpos : (0:ℝ) < (1 + r) / (1 - r) := by
    apply div_pos <;> linarith
  have hr1 : (1 : ℝ) - r ≠ 0 := by linarith
  rw [tanh_exp_form, artanhR, mul_div_cancel₀ _ (two_ne_zero), Real.exp_log hpos]
  field_simp
  ring

/-- C6: for every sample size `n ≥ 4`, when `|r| < 0.999` the computed
interval equals `tanh(atanh(r) ± 1.96/sqrt(n-3))`, when `|r| ≥ 0.999` the
transform is skipped and the interval is the degenerate `(r, r)`, and the
standard-error denominator `sqrt(n-3)` is at least 1, so no division by a
near-zero denominator occurs. -/
theorem c6_fisherCI_formula (r : ℝ) (n : ℕ) (hn : 4 ≤ n) :
    (|r| < 0.999 →
      fisherCI r n =
        (Real.tanh (artanhR r - 1.96 / Real.sqrt ((n : ℝ) - 3)),
         Real.tanh (artanhR r + 1.96 / Real.sqrt ((n : ℝ) - 3)))) ∧
    (0.999 ≤ |r| → fisherCI r n = (r, r)) ∧
    1 ≤ Real.sqrt ((n : ℝ) - 3) := by
  have hn4 : (4 : ℝ) ≤ (n : ℝ) := by exact_mod_cast hn
  refine ⟨fun h => ?_, fun h => ?_, ?_⟩
  · rw [fisherCI, if_pos h, mul_one_div]
  · rw [fisherCI, if_neg (not_lt.mpr h)]
  · exact Real.one_le_sqrt.mpr (by linarith)

/-- Witness for C6 at the concrete input `r = 0`, `n = 4`. -/
theorem c6_fisherCI_formula_witness :
    ((|(0 : ℝ)| < 0.999 →
      fisherCI 0 4 =
        (Real.tanh (artanhR 0 - 1.96 / Real.sqrt ((4 : ℕ) - 3)),
         Real.tanh (artanhR 0 + 1.96 / Real.sqrt ((4 : ℕ) - 3)))) ∧
    (0.999 ≤ |(0 : ℝ)| → fisherCI 0 4 = (0, 0)) ∧
    1 ≤ Real.sqrt (((4 : ℕ) : ℝ) - 3)) :=
  c6_fisherCI_formula 0 4 (by omega)

/-- C10: the reported confidence bounds bracket the correlation coefficient:
`lower ≤ r ≤ upper` always, with strict inequalities whenever `|r| < 0.999`
(the half-width `1.96/sqrt(n-3)` is positive for `n ≥ 4` and `tanh` is
strictly increasing with `tanh(atanh(r)) = r`). -/
theorem c10_fisherCI_brackets (r : ℝ) (n : ℕ) (hn : 4 ≤ n) :
    ((fisherCI r n).1 ≤ r ∧ r ≤ (fisherCI r n).2) ∧
    (|r| < 0.999 → (fisherCI r n).1 < r ∧ r < (fisherCI r n).2) := by
  have hn4 : (4 : ℝ) ≤ (n : ℝ) := by exact_mod_cast hn
  have hsq : (0:ℝ) < Real.sqrt ((n : ℝ) - 3) := Real.sqrt_pos.mpr (by linarith)
  have hc : (0:ℝ) < 1.96 * (1 / Real.sqrt ((n : ℝ) - 3)) := by positivity
  by_cases h : |r| < 0.999
  · have hr1 : |r| < 1 := h.trans (by norm_num)
    have hid : Real.tanh (artanhR r) = r := tanh_artanhR hr1
    have hlo : Real.tanh (artanhR r - 1.96 * (1 / Real.sqrt ((n : ℝ) - 3))) < r := by
      calc Real.tanh (artanhR r - 1.96 * (1 / Real.sqrt ((n : ℝ) - 3)))
          < Real.tanh (artanhR r) := tanh_strictMono (by linarith)
        _ = r := hid
    have hhi : r < Real.tanh (artanhR r + 1.96 * (1 / Real.sqrt ((n : ℝ) - 3))) := by
      calc r = Real.tanh (artanhR r) := hid.symm
        _ < Real.tanh (artanhR r + 1.96 * (1 / Real.sqrt ((n : ℝ) - 3))) :=
            tanh_strictMono (by linarith)
    rw [fisherCI, if_pos h]
    exact ⟨⟨le_of_lt hlo, le_of_lt hhi⟩, fun _ => ⟨hlo, hhi⟩⟩
  · rw [fisherCI, if_neg h]
    exact ⟨⟨le_refl r, le_refl r⟩, fun hcon => absurd hcon h⟩

/-- Witness for C10 at the concrete input `r = 0`, `n = 4`. -/
theorem c10_fisherCI_brackets_witness :
    (((fisherCI 0 4).1 ≤ (0:ℝ) ∧ (0:ℝ) ≤ (fisherCI 0 4).2) ∧
    (|(0:ℝ)| < 0.999 → (fisherCI 0 4).1 < (0:ℝ) ∧ (0:ℝ) < (fisherCI 0 4).2)) :=
  c10_fisherCI_brackets 0 4 (by omega)

/-! ### Row-order invariance of the downstream aggregates -/

/-- The sufficient statistics of a paired sample, from which `pearsonr`
computes r and the p-value: sample size and the sums Σx, Σy, Σx², Σy², Σxy.
In exact arithmetic both outputs of `pearsonr` are functions of these sums
alone. -/
def pearsonStats (l : List (ℚ × ℚ)) : ℕ × ℚ × ℚ × ℚ × ℚ × ℚ :=
  (l.length, (l.map Prod.fst).sum, (l.map Prod.snd).sum,
   (l.map (fun p => p.1 * p.1)).sum, (l.map (fun p => p.2 * p.2)).sum,
   (l.map (fun p => p.1 * p.2)).sum)

theorem perm_any {l1 l2 : List α} (h : l1.Perm l2) (f : α → Bool) :
    l1.any f = l2.any f := by
  induction h with
  | nil => rfl
  | cons x h ih => simp only [List.any_cons, ih]
  | swap x y l => simp only [List.any_cons, Bool.or_left_comm]
  | trans h1 h2 ih1 ih2 => rw [ih1, ih2]

theorem ever_perm {t t' : Table} (hrows : t.rows.Perm t'.rows) (thr : ℚ)
    (st c : String) : ever t thr st c = ever t' thr st c :=
  perm_any hrows _

theorem studentFinset_perm {t t' : Table} (hrows : t.rows.Perm t'.rows) :
    studentFinset t = studentFinset t' :=
  List.toFinset_eq_of_perm _ _ (hrows.map _)

theorem coMiss_perm {t t' : Table} (hrows : t.rows.Perm t'.rows) (thr : ℚ)
    (c1 c2 : String) : coMiss t thr c1 c2 = coMiss t' thr c1 c2 := by
  unfold coMiss
  rw [studentFinset_perm hrows]
  congr 1
  apply Finset.filter_congr
  intro st _
  rw [ever_perm hrows, ever_perm hrows]

theorem coMiss_perm_fun {t t' : Table} (hrows : t.rows.Perm t'.rows) (thr : ℚ) :
    coMiss t thr = coMiss t' thr :=
  funext fun c1 => funext fun c2 => coMiss_perm hrows thr c1 c2

theorem domainWeight_perm {t t' : Table} (hrows : t.rows.Perm t'.rows) (thr : ℚ)
    (e1s e2s : List String) :
    domainWeight t thr e1s e2s = domainWeight t' thr e1s e2s := by
  unfold domainWeight
  rw [coMiss_perm_fun hrows]

theorem domainMissCount_perm {t t' : Table} (hrows : t.rows.Perm t'.rows) (thr : ℚ)
    (es : List String) : domainMissCount t thr es = domainMissCount t' thr es :=
  (hrows.map _).sum_eq

theorem element_graph_perm {t t' : Table} (hcols : t.cols = t'.cols)
    (hrows : t.rows.Perm t'.rows) (elems : List String) (thr : ℚ) (m : ℕ) :
    element_graph t elems thr m = element_graph t' elems thr m := by
  simp only [element_graph]
  rw [hcols]
  congr 1
  · exact List.map_congr_left (fun c _ => by rw [hrows.countP_eq])
  · exact List.filterMap_congr (fun p _ => by rw [coMiss_perm hrows])

theorem domain_graph_perm {t t' : Table} (hcols : t.cols = t'.cols)
    (hrows : t.rows.Perm t'.rows) (groups : List (String × List String))
    (elems : List String) (thr : ℚ) (m : ℕ) :
    domain_graph t groups elems thr m = domain_graph t' groups elems thr m := by
  simp only [domain_graph]
  congr 1
  · exact List.map_congr_left (fun g _ => by rw [domainMissCount_perm hrows])
  · exact List.filterMap_congr (fun p _ => by rw [domainWeight_perm hrows])

theorem validData_perm {t t' : Table} (hrows : t.rows.Perm t'.rows)
    (e1 e2 : String) : (validData t e1 e2).Perm (validData t' e1 e2) :=
  hrows.filterMap _

theorem pearsonStats_perm {l1 l2 : List (ℚ × ℚ)} (h : l1.Perm l2) :
    pearsonStats l1 = pearsonStats l2 := by
  unfold pearsonStats
  rw [h.length_eq, (h.map _).sum_eq, (h.map _).sum_eq, (h.map _).sum_eq,
    (h.map _).sum_eq, (h.map _).sum_eq]

theorem correlation_pairs_perm (g : ℕ × ℚ × ℚ × ℚ × ℚ × ℚ → ℚ × ℚ)
    (ci : ℚ → ℕ → ℚ × ℚ) {t t' : Table} (hcols : t.cols = t'.cols)
    (hrows : t.rows.Perm t'.rows) (elems : List String) (max_p : ℚ) :
    correlation_pairs (fun l => g (pearsonStats l)) ci t elems max_p =
      correlation_pairs (fun l => g (pearsonStats l)) ci t' elems max_p := by
  simp only [correlation_pairs]
  apply List.filterMap_congr
  intro pr _
  have hvd := validData_perm hrows pr.1 pr.2
  rw [hcols, hvd.length_eq, pearsonStats_perm hvd]

/-- C9: permuting the rows of the score table leaves every downstream
aggregate unchanged — the element-level miss graph, the domain-level miss
graph, and the correlation analyzer output (for every model of `pearsonr`
that, as in exact arithmetic, factors through the sufficient statistics of
the sample) are all equal on the permuted table — and the generator's final
full-sequence shuffle produces a permutation of the assembled rows, so it
affects presentation order only. -/
theorem c9_aggregates_row_order_invariant :
    (∀ (g : ℕ × ℚ × ℚ × ℚ × ℚ × ℚ → ℚ × ℚ) (ci : ℚ → ℕ → ℚ × ℚ) (t t' : Table)
        (groups : List (String × List String)) (elems : List String) (thr : ℚ)
        (m : ℕ) (max_p : ℚ), t.cols = t'.cols → t.rows.Perm t'.rows →
        element_graph t elems thr m = element_graph t' elems thr m ∧
        domain_graph t groups elems thr m = domain_graph t' groups elems thr m ∧
        correlation_pairs (fun l => g (pearsonStats l)) ci t elems max_p =
          correlation_pairs (fun l => g (pearsonStats l)) ci t' elems max_p) ∧
    (∀ amb students attempts seed groups,
        (generate_mock_data amb students attempts seed groups).Perm
          (generate_rows students attempts seed groups).1) := by
  constructor
  · intro g ci t t' groups elems thr m max_p hcols hrows
    exact ⟨element_graph_perm hcols hrows elems thr m,
      domain_graph_perm hcols hrows groups elems thr m,
      correlation_pairs_perm g ci hcols hrows elems max_p⟩
  · intro amb students attempts seed groups
    exact List.rotate_perm _ _

/-- Witness for C9 at a concrete input: a two-row table and its reversal,
with the constant pearson model and the degenerate interval model, plus the
generator instance for one student and one attempt. -/
theorem c9_aggregates_row_order_invariant_witness :
    (element_graph
        ⟨["a", "b"], [⟨"S1", [("a", some 0), ("b", some 3)]⟩,
          ⟨"S2", [("a", some 3), ("b", some 0)]⟩]⟩ ["a", "b"] 2 1 =
      element_graph
        ⟨["a", "b"], [⟨"S2", [("a", some 3), ("b", some 0)]⟩,
          ⟨"S1", [("a", some 0), ("b", some 3)]⟩]⟩ ["a", "b"] 2 1 ∧
    domain_graph
        ⟨["a", "b"], [⟨"S1", [("a", some 0), ("b", some 3)]⟩,
          ⟨"S2", [("a", some 3), ("b", some 0)]⟩]⟩
        [("G1", ["a"]), ("G2", ["b"])] ["a", "b"] 2 1 =
      domain_graph
        ⟨["a", "b"], [⟨"S2", [("a", some 3), ("b", some 0)]⟩,
          ⟨"S1", [("a", some 0), ("b", some 3)]⟩]⟩
        [("G1", ["a"]), ("G2", ["b"])] ["a", "b"] 2 1 ∧
    correlation_pairs (fun l => (fun _ => ((0 : ℚ), (0 : ℚ))) (pearsonStats l))
        (fun r _ => (r, r))
        ⟨["a", "b"], [⟨"S1", [("a", some 0), ("b", some 3)]⟩,
          ⟨"S2", [("a", some 3), ("b", some 0)]⟩]⟩ ["a", "b"] 1 =
      correlation_pairs (fun l => (fun _ => ((0 : ℚ), (0 : ℚ))) (pearsonStats l))
        (fun r _ => (r, r))
        ⟨["a", "b"], [⟨"S2", [("a", some 3), ("b", some 0)]⟩,
          ⟨"S1", [("a", some 0), ("b", some 3)]⟩]⟩ ["a", "b"] 1) ∧
    (generate_mock_data 0 ["S"] [1] 0 GROUPS).Perm
      (generate_rows ["S"] [1] 0 GROUPS).1 :=
  ⟨c9_aggregates_row_order_invariant.1 (fun _ => ((0 : ℚ), (0 : ℚ))) (fun r _ => (r, r))
      ⟨["a", "b"], [⟨"S1", [("a", some 0), ("b", some 3)]⟩,
        ⟨"S2", [("a", some 3), ("b", some 0)]⟩]⟩
      ⟨["a", "b"], [⟨"S2", [("a", some 3), ("b", some 0)]⟩,
        ⟨"S1", [("a", some 0), ("b", some 3)]⟩]⟩
      [("G1", ["a"]), ("G2", ["b"])] ["a", "b"] 2 1 1 rfl
      (List.Perm.swap (⟨"S2", [("a", some 3), ("b", some 0)]⟩ : TRow)
        (⟨"S1", [("a", some 0), ("b", some 3)]⟩ : TRow) []),
    c9_aggregates_row_order_invariant.2 0 ["S"] [1] 0 GROUPS⟩

end Insights
